import Mathlib

/-!
Shallow embedding of the hd44780 I²C character-display driver
(package hd44780, file hd44780.go).

Go bytes are modelled as natural numbers; every operation that in Go
truncates to 8 bits carries an explicit `% 256`.  The I²C transport is
modelled as an oracle (`Transport`) telling, for each bus-write index,
whether that write fails; a `World` records the bytes successfully
written on the bus and, as a pure annotation, the sequence of
(register-select, data) pairs with which the nibble-write routine
`write` was invoked.  Timing (`time.Sleep`) has no observable effect on
the byte traces and is not modelled.
-/

namespace Hd44780

/-- `BacklightPolarity` from the source (a Go bool). -/
abbrev BacklightPolarity := Bool

/-- `Negative` indicates the backlight is active-low. -/
def Negative : BacklightPolarity := false

/-- `Positive` indicates the backlight is active-high. -/
def Positive : BacklightPolarity := true

-- Command constants from the source.
def lcdClearDisplay : Nat := 0x01
def lcdReturnHome : Nat := 0x02
def lcdCursorShift : Nat := 0x10
def lcdSetCGRamAddr : Nat := 0x40
def lcdSetDDRamAddr : Nat := 0x80

-- Entry mode flags.
def lcdSetEntryMode : Nat := 0x04
def lcdEntryDecrement : Nat := 0x00
def lcdEntryIncrement : Nat := 0x02
def lcdEntryShiftOff : Nat := 0x00
def lcdEntryShiftOn : Nat := 0x01

-- Display mode flags.
def lcdDisplayOn : Nat := 0x04
def lcdDisplayOff : Nat := 0x00
def lcdBlinkCursorOn : Nat := 0x01
def lcdBlinkCursorOff : Nat := 0x00
def lcdUnderlineCursorOn : Nat := 0x02
def lcdUnderlineCursorOff : Nat := 0x00
def lcdSetDisplayMode : Nat := 0x08

-- Cursor and display move flags.
def lcdMoveLeft : Nat := 0x00
def lcdCursorMove : Nat := 0x00
def lcdMoveRight : Nat := 0x04
def lcdDisplayMove : Nat := 0x08

-- Function mode flags.
def lcd1Line : Nat := 0x00
def lcd2Line : Nat := 0x08
def lcd4BitMode : Nat := 0x00
def lcd8BitMode : Nat := 0x10
def lcd5x8Dots : Nat := 0x00
def lcd5x10Dots : Nat := 0x04
def lcdSetFunctionMode : Nat := 0x20

-- Backlight control.
def lcdBacklightOff : Nat := 0x00
def lcdBacklightOn : Nat := 0x08

def registerSelectHigh : Nat := 0x1
def registerSelectLow : Nat := 0x0

/-- `I2CPinMap`: the mapping between the pins of the I²C port expander
and the pins of the HD44780 controller.  Positions are bit indices in
the single transport byte. -/
structure I2CPinMap where
  RS : Nat
  RW : Nat
  EN : Nat
  D4 : Nat
  D5 : Nat
  D6 : Nat
  D7 : Nat
  Backlight : Nat
  BLPolarity : BacklightPolarity

/-- `MJKDZPinMap`: standard mapping for an MJKDZ-based I²C backpack. -/
def MJKDZPinMap : I2CPinMap :=
  { RS := 6, RW := 5, EN := 4, D4 := 0, D5 := 1, D6 := 2, D7 := 3,
    Backlight := 7, BLPolarity := Negative }

/-- `PCF8574PinMap`: standard mapping for a PCF8574-based I²C backpack. -/
def PCF8574PinMap : I2CPinMap :=
  { RS := 0, RW := 1, EN := 2, D4 := 4, D5 := 5, D6 := 6, D7 := 7,
    Backlight := 3, BLPolarity := Positive }

/-- The `Hd44780I2c` connection value: pin map, backlight flag and the
three in-memory mode bitfields (the `*i2c.I2C` handle is replaced by
the `Transport` oracle threaded through the operations). -/
structure Hd44780I2c where
  pinMap : I2CPinMap
  backlight : Bool
  eMode : Nat
  dMode : Nat
  fMode : Nat

/-- Observable effects of a run: `trace` is the list of bytes
successfully written on the I²C bus (in order); `instrs` logs each call
of the nibble-write routine `write` as a (register-select, data) pair. -/
structure World where
  trace : List Nat
  instrs : List (Nat × Nat)

/-- The transport oracle: `t i = true` means the i-th bus write
(counting all writes of the run) fails with a transport error. -/
abbrev Transport := Nat → Bool

/-- A transport on which every bus write succeeds. -/
def transportOk : Transport := fun _ => false

/-- One `I2C.WriteByte` call: on failure the trace is unchanged and the
error carries the index of the failing write. -/
def busWrite (t : Transport) (tr : List Nat) (b : Nat) : List Nat × Except Nat Unit :=
  if t tr.length then (tr, Except.error tr.length)
  else (tr ++ [b], Except.ok ())

/-- Sequential `WriteByte` calls, aborting at the first failure. -/
def busWriteList (t : Transport) : List Nat → List Nat → List Nat × Except Nat Unit
  | tr, [] => (tr, Except.ok ())
  | tr, b :: bs =>
    match busWrite t tr b with
    | (tr1, Except.ok _) => busWriteList t tr1 bs
    | (tr1, Except.error e) => (tr1, Except.error e)

/-- The high-nibble frame of `write`: bits 4-7 of `data` placed at the
pin map's D4-D7 positions (Go byte shifts truncate, hence `% 256`). -/
def instructionHigh (pm : I2CPinMap) (data : Nat) : Nat :=
  ((((data >>> 4) &&& 1) <<< pm.D4) % 256) |||
  ((((data >>> 5) &&& 1) <<< pm.D5) % 256) |||
  ((((data >>> 6) &&& 1) <<< pm.D6) % 256) |||
  ((((data >>> 7) &&& 1) <<< pm.D7) % 256)

/-- The low-nibble frame of `write`: bits 0-3 of `data` placed at the
pin map's D4-D7 positions. -/
def instructionLow (pm : I2CPinMap) (data : Nat) : Nat :=
  ((((data >>> 0) &&& 1) <<< pm.D4) % 256) |||
  ((((data >>> 1) &&& 1) <<< pm.D5) % 256) |||
  ((((data >>> 2) &&& 1) <<< pm.D6) % 256) |||
  ((((data >>> 3) &&& 1) <<< pm.D7) % 256)

/-- The loop body of `write` decorating a nibble frame: OR in the
register-select bit, and the backlight bit when the in-memory backlight
state equals the configured polarity. -/
def frameByte (hd : Hd44780I2c) (rs ins : Nat) : Nat :=
  let withRS := ins ||| ((rs <<< hd.pinMap.RS) % 256)
  if hd.backlight == hd.pinMap.BLPolarity then
    withRS ||| ((1 <<< hd.pinMap.Backlight) % 256)
  else withRS

/-- The three bus bytes of one strobe cycle: frame with enable low,
frame with enable asserted, frame with enable low again. -/
def frameBytes (hd : Hd44780I2c) (rs ins : Nat) : List Nat :=
  [frameByte hd rs ins,
   frameByte hd rs ins ||| ((1 <<< hd.pinMap.EN) % 256),
   frameByte hd rs ins]

/-- All six bus bytes emitted by one `write` call: the strobe of the
high-nibble frame followed by the strobe of the low-nibble frame. -/
def writeBytesList (hd : Hd44780I2c) (data rs : Nat) : List Nat :=
  frameBytes hd rs (instructionHigh hd.pinMap data) ++
  frameBytes hd rs (instructionLow hd.pinMap data)

/-- `write`: split `data` into two nibble frames and strobe each onto
the bus; abort on the first transport failure. -/
def write (t : Transport) (hd : Hd44780I2c) (w : World) (data rs : Nat) :
    World × Except Nat Unit :=
  match busWriteList t w.trace (writeBytesList hd data rs) with
  | (tr, r) => ({ trace := tr, instrs := w.instrs ++ [(rs, data)] }, r)

/-- `WriteChar`: write a byte with register select in data mode. -/
def WriteChar (t : Transport) (hd : Hd44780I2c) (w : World) (value : Nat) :
    World × Except Nat Unit :=
  write t hd w value registerSelectHigh

/-- `WriteInstruction`: write a byte with register select in command mode. -/
def WriteInstruction (t : Transport) (hd : Hd44780I2c) (w : World) (value : Nat) :
    World × Except Nat Unit :=
  write t hd w value registerSelectLow

def setEntryMode (t : Transport) (hd : Hd44780I2c) (w : World) : World × Except Nat Unit :=
  WriteInstruction t hd w (lcdSetEntryMode ||| hd.eMode)

def setDisplayMode (t : Transport) (hd : Hd44780I2c) (w : World) : World × Except Nat Unit :=
  WriteInstruction t hd w (lcdSetDisplayMode ||| hd.dMode)

def setFunctionMode (t : Transport) (hd : Hd44780I2c) (w : World) : World × Except Nat Unit :=
  WriteInstruction t hd w (lcdSetFunctionMode ||| hd.fMode)

/-- The sixteen `ModeSetter` functions of the source, as an enumeration
(each is interpreted by `applySetter`). -/
inductive ModeSetter where
  | EntryDecrement | EntryIncrement | EntryShiftOff | EntryShiftOn
  | DisplayOff | DisplayOn | UnderlineCursorOff | UnderlineCursorOn
  | BlinkCursorOff | BlinkCursorOn | FourBitMode | EightBitMode
  | OneLine | TwoLine | Dots5x8 | Dots5x10

/-- The body of each `ModeSetter`; Go's `^flag` complements within a
byte, i.e. `255 ^^^ flag`. -/
def applySetter : ModeSetter → Hd44780I2c → Hd44780I2c
  | .EntryDecrement, hd => { hd with eMode := hd.eMode &&& (255 ^^^ lcdEntryIncrement) }
  | .EntryIncrement, hd => { hd with eMode := hd.eMode ||| lcdEntryIncrement }
  | .EntryShiftOff, hd => { hd with eMode := hd.eMode &&& (255 ^^^ lcdEntryShiftOn) }
  | .EntryShiftOn, hd => { hd with eMode := hd.eMode ||| lcdEntryShiftOn }
  | .DisplayOff, hd => { hd with dMode := hd.dMode &&& (255 ^^^ lcdDisplayOn) }
  | .DisplayOn, hd => { hd with dMode := hd.dMode ||| lcdDisplayOn }
  | .UnderlineCursorOff, hd => { hd with dMode := hd.dMode &&& (255 ^^^ lcdUnderlineCursorOn) }
  | .UnderlineCursorOn, hd => { hd with dMode := hd.dMode ||| lcdUnderlineCursorOn }
  | .BlinkCursorOff, hd => { hd with dMode := hd.dMode &&& (255 ^^^ lcdBlinkCursorOn) }
  | .BlinkCursorOn, hd => { hd with dMode := hd.dMode ||| lcdBlinkCursorOn }
  | .FourBitMode, hd => { hd with fMode := hd.fMode &&& (255 ^^^ lcd8BitMode) }
  | .EightBitMode, hd => { hd with fMode := hd.fMode ||| lcd8BitMode }
  | .OneLine, hd => { hd with fMode := hd.fMode &&& (255 ^^^ lcd2Line) }
  | .TwoLine, hd => { hd with fMode := hd.fMode ||| lcd2Line }
  | .Dots5x8, hd => { hd with fMode := hd.fMode &&& (255 ^^^ lcd5x10Dots) }
  | .Dots5x10, hd => { hd with fMode := hd.fMode ||| lcd5x10Dots }

/-- `DefaultModes`: the default initialization modes. -/
def DefaultModes : List ModeSetter :=
  [.FourBitMode, .TwoLine, .Dots5x8, .EntryIncrement, .EntryShiftOff,
   .DisplayOn, .UnderlineCursorOff, .BlinkCursorOff]

/-- The commit half of `SetMode`: issue the three mode instruction
writes, entry then display then function, aborting on failure. -/
def commitModes (t : Transport) (hd : Hd44780I2c) (w : World) : World × Except Nat Unit :=
  match setEntryMode t hd w with
  | (w1, Except.ok _) =>
    match setDisplayMode t hd w1 with
    | (w2, Except.ok _) => setFunctionMode t hd w2
    | (w2, Except.error e) => (w2, Except.error e)
  | (w1, Except.error e) => (w1, Except.error e)

/-- `SetMode`: apply the mode setter functions to the in-memory state,
then commit all three mode bitfields to hardware. -/
def SetMode (t : Transport) (hd : Hd44780I2c) (modes : List ModeSetter) (w : World) :
    Hd44780I2c × (World × Except Nat Unit) :=
  let hd1 := modes.foldl (fun h m => applySetter m h) hd
  (hd1, commitModes t hd1 w)

/-- `Clear`: write the clear-display instruction, then re-commit the
(unchanged) in-memory mode state via `SetMode` with no setters. -/
def Clear (t : Transport) (hd : Hd44780I2c) (w : World) :
    Hd44780I2c × (World × Except Nat Unit) :=
  match WriteInstruction t hd w lcdClearDisplay with
  | (w1, Except.ok _) => SetMode t hd [] w1
  | (w1, Except.error e) => (hd, w1, Except.error e)

/-- `lcdInit`: three reset writes of 0x03, the switch to 4-bit mode
(0x02), then `Clear`; each step aborts on transport failure. -/
def lcdInit (t : Transport) (hd : Hd44780I2c) (w : World) :
    Hd44780I2c × (World × Except Nat Unit) :=
  match WriteInstruction t hd w 0x03 with
  | (w1, Except.error e) => (hd, w1, Except.error e)
  | (w1, Except.ok _) =>
    match WriteInstruction t hd w1 0x03 with
    | (w2, Except.error e) => (hd, w2, Except.error e)
    | (w2, Except.ok _) =>
      match WriteInstruction t hd w2 0x03 with
      | (w3, Except.error e) => (hd, w3, Except.error e)
      | (w3, Except.ok _) =>
        match WriteInstruction t hd w3 0x02 with
        | (w4, Except.error e) => (hd, w4, Except.error e)
        | (w4, Except.ok _) => Clear t hd w4

/-- `NewHd44780I2c`: build the connection value, run `lcdInit`, then
`SetMode` with the default modes followed by the caller's modes. -/
def NewHd44780I2c (t : Transport) (pinMap : I2CPinMap) (modes : List ModeSetter)
    (w : World) : Except Nat Hd44780I2c × World :=
  let c : Hd44780I2c :=
    { pinMap := pinMap, backlight := true, eMode := 0x00, dMode := 0x00, fMode := 0x00 }
  match lcdInit t c w with
  | (c1, w1, Except.ok _) =>
    match SetMode t c1 (DefaultModes ++ modes) w1 with
    | (c2, w2, Except.ok _) => (Except.ok c2, w2)
    | (_, w2, Except.error e) => (Except.error e, w2)
  | (_, w1, Except.error e) => (Except.error e, w1)

/-- The `switch line` address computation of `DisplayString`; any line
other than 1-4 leaves the address at its zero value. -/
def displayAddress (line pos : Nat) : Nat :=
  if line = 1 then pos
  else if line = 2 then (0x40 + pos) % 256
  else if line = 3 then (0x10 + pos) % 256
  else if line = 4 then (0x54 + pos) % 256
  else 0

/-- The character loop of `DisplayString`: each rune is truncated to a
byte and written in data mode; abort on failure. -/
def writeChars (t : Transport) (hd : Hd44780I2c) : World → List Nat → World × Except Nat Unit
  | w, [] => (w, Except.ok ())
  | w, c :: cs =>
    match WriteChar t hd w (c % 256) with
    | (w1, Except.ok _) => writeChars t hd w1 cs
    | (w1, Except.error e) => (w1, Except.error e)

/-- `DisplayString`: set the DDRAM address computed from (line, pos),
then stream the characters as data writes. -/
def DisplayString (t : Transport) (hd : Hd44780I2c) (w : World) (str : List Nat)
    (line pos : Nat) : World × Except Nat Unit :=
  match WriteInstruction t hd w ((lcdSetDDRamAddr + displayAddress line pos) % 256) with
  | (w1, Except.ok _) => writeChars t hd w1 str
  | (w1, Except.error e) => (w1, Except.error e)

/-- `BacklightOn`: set the in-memory flag, then write the fixed byte
`lcdBacklightOn` directly to the bus (no nibble framing). -/
def BacklightOn (t : Transport) (hd : Hd44780I2c) (w : World) :
    Hd44780I2c × (World × Except Nat Unit) :=
  ({ hd with backlight := true },
   match busWrite t w.trace lcdBacklightOn with
   | (tr, r) => ({ w with trace := tr }, r))

/-- `BacklightOff`: set the in-memory flag to false, then write the
fixed byte `lcdBacklightOff` directly to the bus. -/
def BacklightOff (t : Transport) (hd : Hd44780I2c) (w : World) :
    Hd44780I2c × (World × Except Nat Unit) :=
  ({ hd with backlight := false },
   match busWrite t w.trace lcdBacklightOff with
   | (tr, r) => ({ w with trace := tr }, r))

-- Mode query accessors.
def EntryIncrementEnabled (hd : Hd44780I2c) : Bool := decide (0 < hd.eMode &&& lcdEntryIncrement)
def EntryShiftEnabled (hd : Hd44780I2c) : Bool := decide (0 < hd.eMode &&& lcdEntryShiftOn)
def DisplayEnabled (hd : Hd44780I2c) : Bool := decide (0 < hd.dMode &&& lcdDisplayOn)
def CursorEnabled (hd : Hd44780I2c) : Bool := decide (0 < hd.dMode &&& lcdUnderlineCursorOn)
def BlinkEnabled (hd : Hd44780I2c) : Bool := decide (0 < hd.dMode &&& lcdBlinkCursorOn)
def EightBitModeEnabled (hd : Hd44780I2c) : Bool := decide (0 < hd.fMode &&& lcd8BitMode)
def TwoLineEnabled (hd : Hd44780I2c) : Bool := decide (0 < hd.fMode &&& lcd2Line)

/-- A pin map is valid when all eight positions fit a byte and are
pairwise distinct (spec §3 invariant). -/
def ValidPinMap (pm : I2CPinMap) : Prop :=
  pm.RS < 8 ∧ pm.RW < 8 ∧ pm.EN < 8 ∧ pm.D4 < 8 ∧ pm.D5 < 8 ∧ pm.D6 < 8 ∧
  pm.D7 < 8 ∧ pm.Backlight < 8 ∧
  List.Nodup [pm.RS, pm.RW, pm.EN, pm.D4, pm.D5, pm.D6, pm.D7, pm.Backlight]

instance (pm : I2CPinMap) : Decidable (ValidPinMap pm) := by
  unfold ValidPinMap; infer_instance

/-- Modelled from the spec (§8, testable property one): the decoder
reads the D4-D7 bit positions of one frame back into a nibble. -/
def decodeNibble (pm : I2CPinMap) (frame : Nat) : Nat :=
  (if frame.testBit pm.D4 then 1 else 0) |||
  (if frame.testBit pm.D5 then 2 else 0) |||
  (if frame.testBit pm.D6 then 4 else 0) |||
  (if frame.testBit pm.D7 then 8 else 0)

/-- Whether a constructor result is a ready connection. -/
def isOkConn : Except Nat Hd44780I2c → Bool
  | Except.ok _ => true
  | Except.error _ => false

/-- Whether an operation result is a success. -/
def isOkResult : Except Nat Unit → Bool
  | Except.ok _ => true
  | Except.error _ => false

/-- A freshly constructed connection over the PCF8574 pin map (the
field values the constructor assigns before `lcdInit`). -/
def pcfConn : Hd44780I2c :=
  { pinMap := PCF8574PinMap, backlight := true, eMode := 0x00, dMode := 0x00, fMode := 0x00 }

/-- The empty world: nothing written yet. -/
def w0 : World := { trace := [], instrs := [] }

/-- A pin map in which D4 and Backlight share bit position 2
(spec §7 / §8 concrete invalid-configuration scenario). -/
def badPinMap : I2CPinMap :=
  { RS := 0, RW := 1, EN := 5, D4 := 2, D5 := 4, D6 := 6, D7 := 7,
    Backlight := 2, BLPolarity := Positive }

example : (write transportOk pcfConn w0 0x03 registerSelectLow).1.trace =
    [0x08, 0x0C, 0x08, 0x38, 0x3C, 0x38] := by decide

example : (DisplayString transportOk pcfConn w0 [0x41, 0x42] 1 3).1.instrs =
    [(0, 0x83), (1, 0x41), (1, 0x42)] := by decide

example : (NewHd44780I2c transportOk badPinMap [] w0).2.trace.length = 66 := by decide

/-! ### General lemmas about the bus layer -/

theorem writeBytesList_length (hd : Hd44780I2c) (data rs : Nat) :
    (writeBytesList hd data rs).length = 6 := by
  simp [writeBytesList, frameBytes]

theorem busWriteList_ok (t : Transport) (tr bs : List Nat)
    (h : ∀ j, j < bs.length → t (tr.length + j) = false) :
    busWriteList t tr bs = (tr ++ bs, Except.ok ()) := by
  induction bs generalizing tr with
  | nil => simp [busWriteList]
  | cons b bs ih =>
    have h0 : t tr.length = false := by simpa using h 0 (by simp)
    have step : busWriteList t tr (b :: bs) = busWriteList t (tr ++ [b]) bs := by
      simp [busWriteList, busWrite, h0]
    rw [step, ih (tr ++ [b])]
    · simp
    · intro j hj
      have := h (j + 1) (by simpa using Nat.succ_lt_succ hj)
      simpa [Nat.add_assoc, Nat.add_comm 1 j] using this

theorem busWriteList_err (t : Transport) (tr bs : List Nat) (k : Nat)
    (hk : k < bs.length) (hfail : t (tr.length + k) = true)
    (hbefore : ∀ j, j < k → t (tr.length + j) = false) :
    busWriteList t tr bs = (tr ++ bs.take k, Except.error (tr.length + k)) := by
  induction bs generalizing tr k with
  | nil => exact absurd hk (by simp)
  | cons b bs ih =>
    cases k with
    | zero =>
      have h0 : t tr.length = true := by simpa using hfail
      simp [busWriteList, busWrite, h0]
    | succ k =>
      have h0 : t tr.length = false := by simpa using hbefore 0 (Nat.succ_pos k)
      have step : busWriteList t tr (b :: bs) = busWriteList t (tr ++ [b]) bs := by
        simp [busWriteList, busWrite, h0]
      rw [step, ih (tr ++ [b]) k (Nat.lt_of_succ_lt_succ hk)]
      · simp [Nat.add_assoc, Nat.add_comm 1 k]
      · simpa [Nat.add_assoc, Nat.add_comm 1 k] using hfail
      · intro j hj
        have := hbefore (j + 1) (Nat.succ_lt_succ hj)
        simpa [Nat.add_assoc, Nat.add_comm 1 j] using this

theorem busWriteList_okT (tr bs : List Nat) :
    busWriteList transportOk tr bs = (tr ++ bs, Except.ok ()) :=
  busWriteList_ok transportOk tr bs (fun _ _ => rfl)

theorem write_okT (hd : Hd44780I2c) (w : World) (data rs : Nat) :
    write transportOk hd w data rs =
      ({ trace := w.trace ++ writeBytesList hd data rs,
         instrs := w.instrs ++ [(rs, data)] }, Except.ok ()) := by
  simp [write, busWriteList_okT]

theorem writeChars_okT (hd : Hd44780I2c) (w : World) (cs : List Nat) :
    writeChars transportOk hd w cs =
      ({ trace := w.trace ++ cs.flatMap (fun c => writeBytesList hd (c % 256) 1),
         instrs := w.instrs ++ cs.map (fun c => (1, c % 256)) }, Except.ok ()) := by
  induction cs generalizing w with
  | nil => simp [writeChars]
  | cons c cs ih =>
    rw [writeChars, WriteChar, registerSelectHigh, write_okT]
    simp [ih]

theorem commitModes_okT (hd : Hd44780I2c) (w : World) :
    commitModes transportOk hd w =
      ({ trace := w.trace ++ writeBytesList hd (lcdSetEntryMode ||| hd.eMode) 0 ++
           writeBytesList hd (lcdSetDisplayMode ||| hd.dMode) 0 ++
           writeBytesList hd (lcdSetFunctionMode ||| hd.fMode) 0,
         instrs := w.instrs ++ [(0, lcdSetEntryMode ||| hd.eMode),
           (0, lcdSetDisplayMode ||| hd.dMode),
           (0, lcdSetFunctionMode ||| hd.fMode)] }, Except.ok ()) := by
  simp [commitModes, setEntryMode, setDisplayMode, setFunctionMode,
    WriteInstruction, registerSelectLow, write_okT]

theorem SetMode_okT (hd : Hd44780I2c) (modes : List ModeSetter) (w : World) :
    SetMode transportOk hd modes w =
      (modes.foldl (fun h m => applySetter m h) hd,
       commitModes transportOk (modes.foldl (fun h m => applySetter m h) hd) w) := rfl

theorem Clear_okT (hd : Hd44780I2c) (w : World) :
    Clear transportOk hd w =
      (hd,
       { trace := w.trace ++ writeBytesList hd lcdClearDisplay 0 ++
           writeBytesList hd (lcdSetEntryMode ||| hd.eMode) 0 ++
           writeBytesList hd (lcdSetDisplayMode ||| hd.dMode) 0 ++
           writeBytesList hd (lcdSetFunctionMode ||| hd.fMode) 0,
         instrs := w.instrs ++ [(0, lcdClearDisplay),
           (0, lcdSetEntryMode ||| hd.eMode),
           (0, lcdSetDisplayMode ||| hd.dMode),
           (0, lcdSetFunctionMode ||| hd.fMode)] }, Except.ok ()) := by
  rw [Clear, WriteInstruction, registerSelectLow, write_okT]
  simp [SetMode, commitModes_okT]

theorem lcdInit_okT (hd : Hd44780I2c) (w : World) :
    lcdInit transportOk hd w =
      (hd,
       { trace := w.trace ++ writeBytesList hd 3 0 ++ writeBytesList hd 3 0 ++
           writeBytesList hd 3 0 ++ writeBytesList hd 2 0 ++
           writeBytesList hd lcdClearDisplay 0 ++
           writeBytesList hd (lcdSetEntryMode ||| hd.eMode) 0 ++
           writeBytesList hd (lcdSetDisplayMode ||| hd.dMode) 0 ++
           writeBytesList hd (lcdSetFunctionMode ||| hd.fMode) 0,
         instrs := w.instrs ++ [(0, 3), (0, 3), (0, 3), (0, 2), (0, lcdClearDisplay),
           (0, lcdSetEntryMode ||| hd.eMode),
           (0, lcdSetDisplayMode ||| hd.dMode),
           (0, lcdSetFunctionMode ||| hd.fMode)] }, Except.ok ()) := by
  rw [lcdInit]
  simp only [WriteInstruction, registerSelectLow, write_okT]
  rw [Clear_okT]
  simp

/-! ### Bit-level lemmas about the frame encoder -/

theorem shl_mod_testBit (b p q : Nat) (hb : b ≤ 1) (hq : q < 8) :
    ((b <<< p) % 256).testBit q = (decide (q = p) && b.testBit 0) := by
  have h256 : (256 : Nat) = 2 ^ 8 := rfl
  rw [h256, Nat.testBit_mod_two_pow, Nat.testBit_shiftLeft]
  by_cases hqp : q = p
  · subst hqp; simp [hq]
  · rw [decide_eq_false hqp, Bool.false_and]
    by_cases hpq : p ≤ q
    · have h1 : 1 ≤ q - p := by omega
      have h2 : (2 : Nat) ≤ 2 ^ (q - p) := by
        calc (2 : Nat) = 2 ^ 1 := rfl
          _ ≤ 2 ^ (q - p) := Nat.pow_le_pow_right (by norm_num) h1
      have hb2 : b < 2 ^ (q - p) := by omega
      rw [Nat.testBit_lt_two_pow hb2]
      simp
    · rw [decide_eq_false (by omega : ¬ q ≥ p)]
      simp

theorem bit_testBit_zero (v k : Nat) : ((v >>> k) &&& 1).testBit 0 = v.testBit k := by
  rw [Nat.testBit_and, Nat.testBit_shiftRight]
  simp

theorem instructionHigh_testBit (pm : I2CPinMap) (v q : Nat) (hq : q < 8) :
    (instructionHigh pm v).testBit q =
      ((decide (q = pm.D4) && v.testBit 4) || (decide (q = pm.D5) && v.testBit 5) ||
       (decide (q = pm.D6) && v.testBit 6) || (decide (q = pm.D7) && v.testBit 7)) := by
  unfold instructionHigh
  rw [Nat.testBit_or, Nat.testBit_or, Nat.testBit_or,
    shl_mod_testBit _ _ _ Nat.and_le_right hq, shl_mod_testBit _ _ _ Nat.and_le_right hq,
    shl_mod_testBit _ _ _ Nat.and_le_right hq, shl_mod_testBit _ _ _ Nat.and_le_right hq,
    bit_testBit_zero, bit_testBit_zero, bit_testBit_zero, bit_testBit_zero]

theorem instructionLow_testBit (pm : I2CPinMap) (v q : Nat) (hq : q < 8) :
    (instructionLow pm v).testBit q =
      ((decide (q = pm.D4) && v.testBit 0) || (decide (q = pm.D5) && v.testBit 1) ||
       (decide (q = pm.D6) && v.testBit 2) || (decide (q = pm.D7) && v.testBit 3)) := by
  unfold instructionLow
  rw [Nat.testBit_or, Nat.testBit_or, Nat.testBit_or,
    shl_mod_testBit _ _ _ Nat.and_le_right hq, shl_mod_testBit _ _ _ Nat.and_le_right hq,
    shl_mod_testBit _ _ _ Nat.and_le_right hq, shl_mod_testBit _ _ _ Nat.and_le_right hq,
    bit_testBit_zero, bit_testBit_zero, bit_testBit_zero, bit_testBit_zero]

theorem frameByte_testBit (hd : Hd44780I2c) (rs ins q : Nat) (hrs : rs ≤ 1) (hq : q < 8)
    (hqrs : q ≠ hd.pinMap.RS) (hqbl : q ≠ hd.pinMap.Backlight) :
    (frameByte hd rs ins).testBit q = ins.testBit q := by
  have h1 : ((rs <<< hd.pinMap.RS) % 256).testBit q = false := by
    rw [shl_mod_testBit _ _ _ hrs hq]; simp [hqrs]
  have h2 : (((1 : Nat) <<< hd.pinMap.Backlight) % 256).testBit q = false := by
    rw [shl_mod_testBit _ _ _ (le_refl 1) hq]; simp [hqbl]
  unfold frameByte
  cases hc : (hd.backlight == hd.pinMap.BLPolarity) <;>
    simp [hc, Nat.testBit_or, h1, h2]

theorem nibble_recompose (x : Nat) (hx : x < 16) :
    ((if x.testBit 0 then 1 else 0) ||| (if x.testBit 1 then 2 else 0) |||
     (if x.testBit 2 then 4 else 0) ||| (if x.testBit 3 then 8 else 0)) = x := by
  revert hx; revert x; decide

set_option maxRecDepth 4096 in
theorem byte_recompose (x : Nat) (hx : x < 256) :
    ((x >>> 4) <<< 4 ||| (x &&& 15)) = x := by
  revert hx; revert x; decide

theorem or_lt_256 (x y : Nat) (hx : x < 256) (hy : y < 256) : (x ||| y) < 256 := by
  have h256 : (256 : Nat) = 2 ^ 8 := rfl
  rw [h256] at hx hy ⊢
  exact Nat.or_lt_two_pow hx hy

theorem instructionHigh_lt (pm : I2CPinMap) (data : Nat) : instructionHigh pm data < 256 := by
  unfold instructionHigh
  have hmod : ∀ x : Nat, x % 256 < 256 := fun x => Nat.mod_lt _ (by norm_num)
  exact or_lt_256 _ _ (or_lt_256 _ _ (or_lt_256 _ _ (hmod _) (hmod _)) (hmod _)) (hmod _)

theorem instructionLow_lt (pm : I2CPinMap) (data : Nat) : instructionLow pm data < 256 := by
  unfold instructionLow
  have hmod : ∀ x : Nat, x % 256 < 256 := fun x => Nat.mod_lt _ (by norm_num)
  exact or_lt_256 _ _ (or_lt_256 _ _ (or_lt_256 _ _ (hmod _) (hmod _)) (hmod _)) (hmod _)

theorem frameByte_lt (hd : Hd44780I2c) (rs ins : Nat) (hins : ins < 256) :
    frameByte hd rs ins < 256 := by
  have hmod : ∀ x : Nat, x % 256 < 256 := fun x => Nat.mod_lt _ (by norm_num)
  unfold frameByte
  cases hc : (hd.backlight == hd.pinMap.BLPolarity) <;> simp [hc]
  · exact or_lt_256 _ _ hins (hmod _)
  · exact or_lt_256 _ _ (or_lt_256 _ _ hins (hmod _)) (hmod _)

theorem writeBytes_lt (hd : Hd44780I2c) (data rs : Nat) :
    ∀ b ∈ writeBytesList hd data rs, b < 256 := by
  intro b hb
  have hmod : ∀ x : Nat, x % 256 < 256 := fun x => Nat.mod_lt _ (by norm_num)
  have hh := frameByte_lt hd rs _ (instructionHigh_lt hd.pinMap data)
  have hl := frameByte_lt hd rs _ (instructionLow_lt hd.pinMap data)
  simp only [writeBytesList, frameBytes, List.mem_append, List.mem_cons,
    List.not_mem_nil, or_false] at hb
  rcases hb with (rfl | rfl | rfl) | (rfl | rfl | rfl)
  · exact hh
  · exact or_lt_256 _ _ hh (hmod _)
  · exact hh
  · exact hl
  · exact or_lt_256 _ _ hl (hmod _)
  · exact hl

/-! ### Shared algebraic helpers -/

theorem lor_lor_self (x f : Nat) : (x ||| f) ||| f = x ||| f := by
  rw [Nat.or_assoc, Nat.or_self]

theorem land_land_self (x m : Nat) : (x &&& m) &&& m = x &&& m := by
  rw [Nat.and_assoc, Nat.and_self]

/-! ### Claim theorems -/

/-- C9: for every mode setter and every ModeState, applying the same
setter twice yields the same ModeState (entry, display and function
bitfields) as applying it once. -/
theorem applySetter_idempotent (s : ModeSetter) (hd : Hd44780I2c) :
    applySetter s (applySetter s hd) = applySetter s hd := by
  cases s <;> simp [applySetter, lor_lor_self, land_land_self]

/-- C10: for every connection (any pin map, any backlight polarity),
`BacklightOn` writes the single fixed byte 0x08 directly to the
transport and sets the in-memory backlight flag to true, and
`BacklightOff` writes the single fixed byte 0x00 and clears the flag;
neither consults the pin map nor performs a nibble-frame write (the
`instrs` log is untouched). -/
theorem backlight_fixed_bytes (hd : Hd44780I2c) (w : World) :
    BacklightOn transportOk hd w =
      ({ hd with backlight := true },
       { w with trace := w.trace ++ [lcdBacklightOn] }, Except.ok ()) ∧
    BacklightOff transportOk hd w =
      ({ hd with backlight := false },
       { w with trace := w.trace ++ [lcdBacklightOff] }, Except.ok ()) := by
  constructor <;> simp [BacklightOn, BacklightOff, busWrite, transportOk]

/-- C8: `Clear` leaves the in-memory entry, display and function
bitfields (and hence every mode query accessor) unchanged, for any
transport outcome; and on a successful transport it issues the clear
instruction followed by exactly the three mode instruction writes
re-committing the unchanged bitfields. -/
theorem Clear_preserves_mode_state (t : Transport) (hd : Hd44780I2c) (w : World) :
    (Clear t hd w).1 = hd ∧
    EntryIncrementEnabled (Clear t hd w).1 = EntryIncrementEnabled hd ∧
    EntryShiftEnabled (Clear t hd w).1 = EntryShiftEnabled hd ∧
    DisplayEnabled (Clear t hd w).1 = DisplayEnabled hd ∧
    CursorEnabled (Clear t hd w).1 = CursorEnabled hd ∧
    BlinkEnabled (Clear t hd w).1 = BlinkEnabled hd ∧
    EightBitModeEnabled (Clear t hd w).1 = EightBitModeEnabled hd ∧
    TwoLineEnabled (Clear t hd w).1 = TwoLineEnabled hd ∧
    (Clear transportOk hd w).2.1.instrs = w.instrs ++
      [(0, lcdClearDisplay), (0, lcdSetEntryMode ||| hd.eMode),
       (0, lcdSetDisplayMode ||| hd.dMode), (0, lcdSetFunctionMode ||| hd.fMode)] := by
  have h1 : (Clear t hd w).1 = hd := by
    rcases hw : WriteInstruction t hd w lcdClearDisplay with ⟨w1, r1⟩
    cases r1 <;> simp [Clear, hw, SetMode]
  exact ⟨h1, by rw [h1], by rw [h1], by rw [h1], by rw [h1], by rw [h1], by rw [h1],
    by rw [h1], by simp [Clear_okT]⟩

/-- C1: for every valid pin map, 8-bit value v, register-select flag
and backlight state, bits 4-7 of v occupy the pin map's D4-D7 positions
in the high-nibble frame and bits 0-3 occupy the same positions in the
low-nibble frame; decoding the D4-D7 positions of the two frames and
recombining the nibbles recovers exactly v. -/
theorem encoder_roundtrip (hd : Hd44780I2c) (v rs : Nat)
    (hpm : ValidPinMap hd.pinMap) (hv : v < 256) (hrs : rs ≤ 1) :
    (frameByte hd rs (instructionHigh hd.pinMap v)).testBit hd.pinMap.D4 = v.testBit 4 ∧
    (frameByte hd rs (instructionHigh hd.pinMap v)).testBit hd.pinMap.D5 = v.testBit 5 ∧
    (frameByte hd rs (instructionHigh hd.pinMap v)).testBit hd.pinMap.D6 = v.testBit 6 ∧
    (frameByte hd rs (instructionHigh hd.pinMap v)).testBit hd.pinMap.D7 = v.testBit 7 ∧
    (frameByte hd rs (instructionLow hd.pinMap v)).testBit hd.pinMap.D4 = v.testBit 0 ∧
    (frameByte hd rs (instructionLow hd.pinMap v)).testBit hd.pinMap.D5 = v.testBit 1 ∧
    (frameByte hd rs (instructionLow hd.pinMap v)).testBit hd.pinMap.D6 = v.testBit 2 ∧
    (frameByte hd rs (instructionLow hd.pinMap v)).testBit hd.pinMap.D7 = v.testBit 3 ∧
    decodeNibble hd.pinMap (frameByte hd rs (instructionHigh hd.pinMap v)) = v >>> 4 ∧
    decodeNibble hd.pinMap (frameByte hd rs (instructionLow hd.pinMap v)) = v &&& 15 ∧
    ((decodeNibble hd.pinMap (frameByte hd rs (instructionHigh hd.pinMap v))) <<< 4 |||
      decodeNibble hd.pinMap (frameByte hd rs (instructionLow hd.pinMap v))) = v := by
  obtain ⟨hRS, hRW, hEN, hD4, hD5, hD6, hD7, hBL, hnd⟩ := hpm
  simp only [List.nodup_cons, List.mem_cons, List.not_mem_nil, not_or, or_false,
    List.nodup_nil, and_true] at hnd
  obtain ⟨⟨nRSRW, nRSEN, nRSD4, nRSD5, nRSD6, nRSD7, nRSBL⟩,
    ⟨nRWEN, nRWD4, nRWD5, nRWD6, nRWD7, nRWBL⟩,
    ⟨nEND4, nEND5, nEND6, nEND7, nENBL⟩,
    ⟨nD4D5, nD4D6, nD4D7, nD4BL⟩,
    ⟨nD5D6, nD5D7, nD5BL⟩, ⟨nD6D7, nD6BL⟩, nD7BL, -⟩ := hnd
  have e4 : (frameByte hd rs (instructionHigh hd.pinMap v)).testBit hd.pinMap.D4 =
      v.testBit 4 := by
    rw [frameByte_testBit _ _ _ _ hrs hD4 (Ne.symm nRSD4) nD4BL,
      instructionHigh_testBit _ _ _ hD4]
    simp [nD4D5, nD4D6, nD4D7]
  have e5 : (frameByte hd rs (instructionHigh hd.pinMap v)).testBit hd.pinMap.D5 =
      v.testBit 5 := by
    rw [frameByte_testBit _ _ _ _ hrs hD5 (Ne.symm nRSD5) nD5BL,
      instructionHigh_testBit _ _ _ hD5]
    simp [Ne.symm nD4D5, nD5D6, nD5D7]
  have e6 : (frameByte hd rs (instructionHigh hd.pinMap v)).testBit hd.pinMap.D6 =
      v.testBit 6 := by
    rw [frameByte_testBit _ _ _ _ hrs hD6 (Ne.symm nRSD6) nD6BL,
      instructionHigh_testBit _ _ _ hD6]
    simp [Ne.symm nD4D6, Ne.symm nD5D6, nD6D7]
  have e7 : (frameByte hd rs (instructionHigh hd.pinMap v)).testBit hd.pinMap.D7 =
      v.testBit 7 := by
    rw [frameByte_testBit _ _ _ _ hrs hD7 (Ne.symm nRSD7) nD7BL,
      instructionHigh_testBit _ _ _ hD7]
    simp [Ne.symm nD4D7, Ne.symm nD5D7, Ne.symm nD6D7]
  have l4 : (frameByte hd rs (instructionLow hd.pinMap v)).testBit hd.pinMap.D4 =
      v.testBit 0 := by
    rw [frameByte_testBit _ _ _ _ hrs hD4 (Ne.symm nRSD4) nD4BL,
      instructionLow_testBit _ _ _ hD4]
    simp [nD4D5, nD4D6, nD4D7]
  have l5 : (frameByte hd rs (instructionLow hd.pinMap v)).testBit hd.pinMap.D5 =
      v.testBit 1 := by
    rw [frameByte_testBit _ _ _ _ hrs hD5 (Ne.symm nRSD5) nD5BL,
      instructionLow_testBit _ _ _ hD5]
    simp [Ne.symm nD4D5, nD5D6, nD5D7]
  have l6 : (frameByte hd rs (instructionLow hd.pinMap v)).testBit hd.pinMap.D6 =
      v.testBit 2 := by
    rw [frameByte_testBit _ _ _ _ hrs hD6 (Ne.symm nRSD6) nD6BL,
      instructionLow_testBit _ _ _ hD6]
    simp [Ne.symm nD4D6, Ne.symm nD5D6, nD6D7]
  have l7 : (frameByte hd rs (instructionLow hd.pinMap v)).testBit hd.pinMap.D7 =
      v.testBit 3 := by
    rw [frameByte_testBit _ _ _ _ hrs hD7 (Ne.symm nRSD7) nD7BL,
      instructionLow_testBit _ _ _ hD7]
    simp [Ne.symm nD4D7, Ne.symm nD5D7, Ne.symm nD6D7]
  have dh : decodeNibble hd.pinMap (frameByte hd rs (instructionHigh hd.pinMap v)) =
      v >>> 4 := by
    have hlt : v >>> 4 < 16 := by
      rw [Nat.shiftRight_eq_div_pow]
      exact Nat.div_lt_of_lt_mul (Nat.lt_of_lt_of_le hv (by norm_num))
    have hr := nibble_recompose (v >>> 4) hlt
    simp only [Nat.testBit_shiftRight] at hr
    unfold decodeNibble
    rw [e4, e5, e6, e7]
    simpa using hr
  have dl : decodeNibble hd.pinMap (frameByte hd rs (instructionLow hd.pinMap v)) =
      v &&& 15 := by
    have hlt : v &&& 15 < 16 := lt_of_le_of_lt Nat.and_le_right (by norm_num)
    have hr := nibble_recompose (v &&& 15) hlt
    have t0 : (15 : Nat).testBit 0 = true := by decide
    have t1 : (15 : Nat).testBit 1 = true := by decide
    have t2 : (15 : Nat).testBit 2 = true := by decide
    have t3 : (15 : Nat).testBit 3 = true := by decide
    simp only [Nat.testBit_and, t0, t1, t2, t3, Bool.and_true] at hr
    unfold decodeNibble
    rw [l4, l5, l6, l7]
    exact hr
  refine ⟨e4, e5, e6, e7, l4, l5, l6, l7, dh, dl, ?_⟩
  rw [dh, dl]
  exact byte_recompose v hv

/-- C1 witness: the round trip at the PCF8574 pin map, v = 0xA5, rs = 1. -/
theorem encoder_roundtrip_witness :
    decodeNibble PCF8574PinMap (frameByte pcfConn 1 (instructionHigh PCF8574PinMap 165)) =
      165 >>> 4 ∧
    decodeNibble PCF8574PinMap (frameByte pcfConn 1 (instructionLow PCF8574PinMap 165)) =
      165 &&& 15 := by
  have h := encoder_roundtrip pcfConn 165 1 (by decide) (by decide) (by decide)
  exact ⟨h.2.2.2.2.2.2.2.2.1, h.2.2.2.2.2.2.2.2.2.1⟩

/-- C6: for every valid pin map (eight pairwise-distinct positions),
8-bit value, register-select flag and backlight state, no frame byte
produced by the encoder (any of the six bytes of a write, the
enable-asserted variants included) has a bit set outside the eight
assigned positions. -/
theorem encoder_no_stray_bits (hd : Hd44780I2c) (data rs : Nat)
    (hpm : ValidPinMap hd.pinMap) (hdata : data < 256) (hrs : rs ≤ 1) :
    ∀ b ∈ writeBytesList hd data rs, ∀ i,
      i ≠ hd.pinMap.RS → i ≠ hd.pinMap.RW → i ≠ hd.pinMap.EN → i ≠ hd.pinMap.D4 →
      i ≠ hd.pinMap.D5 → i ≠ hd.pinMap.D6 → i ≠ hd.pinMap.D7 → i ≠ hd.pinMap.Backlight →
      b.testBit i = false := by
  intro b hb i hiRS hiRW hiEN hi4 hi5 hi6 hi7 hiBL
  by_cases hi : i < 8
  · have hih : (instructionHigh hd.pinMap data).testBit i = false := by
      rw [instructionHigh_testBit _ _ _ hi]; simp [hi4, hi5, hi6, hi7]
    have hil : (instructionLow hd.pinMap data).testBit i = false := by
      rw [instructionLow_testBit _ _ _ hi]; simp [hi4, hi5, hi6, hi7]
    have hfh : (frameByte hd rs (instructionHigh hd.pinMap data)).testBit i = false := by
      rw [frameByte_testBit _ _ _ _ hrs hi hiRS hiBL]; exact hih
    have hfl : (frameByte hd rs (instructionLow hd.pinMap data)).testBit i = false := by
      rw [frameByte_testBit _ _ _ _ hrs hi hiRS hiBL]; exact hil
    have hen : (((1 : Nat) <<< hd.pinMap.EN) % 256).testBit i = false := by
      rw [shl_mod_testBit _ _ _ (le_refl 1) hi]; simp [hiEN]
    simp only [writeBytesList, frameBytes, List.mem_append, List.mem_cons,
      List.not_mem_nil, or_false] at hb
    rcases hb with (rfl | rfl | rfl) | (rfl | rfl | rfl)
    · exact hfh
    · rw [Nat.testBit_or]; simp [hfh, hen]
    · exact hfh
    · exact hfl
    · rw [Nat.testBit_or]; simp [hfl, hen]
    · exact hfl
  · have hb256 := writeBytes_lt hd data rs b hb
    have h2 : (256 : Nat) ≤ 2 ^ i := by
      calc (256 : Nat) = 2 ^ 8 := rfl
        _ ≤ 2 ^ i := Nat.pow_le_pow_right (by norm_num) (Nat.le_of_not_lt hi)
    exact Nat.testBit_lt_two_pow (lt_of_lt_of_le hb256 h2)

/-- C6 witness: the first frame byte of a write at the PCF8574 pin map
has bit 9 (outside every assigned position) clear. -/
theorem encoder_no_stray_bits_witness :
    Nat.testBit ((writeBytesList pcfConn 165 1).headD 0) 9 = false :=
  encoder_no_stray_bits pcfConn 165 1 (by decide) (by decide) (by decide)
    ((writeBytesList pcfConn 165 1).headD 0) (by decide) 9 (by decide) (by decide)
    (by decide) (by decide) (by decide) (by decide) (by decide) (by decide)

/-- C7: for each of the two frames of a byte write, the engine emits
exactly three bus writes (frame with enable low, frame with enable
asserted, frame with enable low again); if every write succeeds the
full six-byte sequence is appended to the trace, and a first failure at
relative index k aborts the remaining writes, keeps the k bytes already
sent, and propagates that failure (its write index) to the caller. -/
theorem write_strobe_and_abort (t : Transport) (hd : Hd44780I2c) (w : World)
    (data rs : Nat) :
    ((∀ j, j < 6 → t (w.trace.length + j) = false) →
      write t hd w data rs =
        ({ trace := w.trace ++ writeBytesList hd data rs,
           instrs := w.instrs ++ [(rs, data)] }, Except.ok ())) ∧
    (∀ k, k < 6 → t (w.trace.length + k) = true →
      (∀ j, j < k → t (w.trace.length + j) = false) →
      write t hd w data rs =
        ({ trace := w.trace ++ (writeBytesList hd data rs).take k,
           instrs := w.instrs ++ [(rs, data)] }, Except.error (w.trace.length + k))) ∧
    writeBytesList hd data rs =
      [frameByte hd rs (instructionHigh hd.pinMap data),
       frameByte hd rs (instructionHigh hd.pinMap data) ||| ((1 <<< hd.pinMap.EN) % 256),
       frameByte hd rs (instructionHigh hd.pinMap data),
       frameByte hd rs (instructionLow hd.pinMap data),
       frameByte hd rs (instructionLow hd.pinMap data) ||| ((1 <<< hd.pinMap.EN) % 256),
       frameByte hd rs (instructionLow hd.pinMap data)] := by
  refine ⟨?_, ?_, rfl⟩
  · intro h
    rw [write, busWriteList_ok t w.trace _ (fun j hj => h j (by
      rwa [writeBytesList_length] at hj))]
  · intro k hk ht hbefore
    rw [write, busWriteList_err t w.trace _ k (by rwa [writeBytesList_length]) ht hbefore]

/-- C7 witness: the strobe sequence of one successful write at the
PCF8574 pin map, data 0xA5, register select high. -/
theorem write_strobe_and_abort_witness :
    write transportOk pcfConn w0 165 1 =
      ({ trace := w0.trace ++ writeBytesList pcfConn 165 1,
         instrs := w0.instrs ++ [(1, 165)] }, Except.ok ()) :=
  (write_strobe_and_abort transportOk pcfConn w0 165 1).1 (fun _ _ => rfl)

/-- C2 counterexample: `DisplayString` with line 5 on the PCF8574 map
returns success (there is no InvalidAddress rejection in the code) and
performs twelve bus writes rather than zero. -/
theorem displayString_line5_no_reject :
    isOkResult (DisplayString transportOk pcfConn w0 [65] 5 0).2 = true ∧
    (DisplayString transportOk pcfConn w0 [65] 5 0).1.trace.length = 12 ∧
    (DisplayString transportOk pcfConn w0 [65] 5 0).1.trace ≠ [] := by decide

/-- C2 amended: for every line value outside {1, 2, 3, 4} (the code is
1-indexed and has no default case), `DisplayString` performs no
validation: the address stays 0, so it writes the set-address
instruction byte 0x80 (ignoring the column), streams the characters,
and returns success on a successful transport. -/
theorem displayString_invalid_line (hd : Hd44780I2c) (w : World) (str : List Nat)
    (line pos : Nat) (h1 : line ≠ 1) (h2 : line ≠ 2) (h3 : line ≠ 3) (h4 : line ≠ 4) :
    DisplayString transportOk hd w str line pos =
      ({ trace := w.trace ++ writeBytesList hd 0x80 0 ++
           str.flatMap (fun c => writeBytesList hd (c % 256) 1),
         instrs := w.instrs ++ (0, 0x80) :: str.map (fun c => (1, c % 256)) },
       Except.ok ()) := by
  have ha : displayAddress line pos = 0 := by
    simp [displayAddress, h1, h2, h3, h4]
  have hb : (lcdSetDDRamAddr + displayAddress line pos) % 256 = 128 := by
    rw [ha]; decide
  rw [DisplayString, hb, WriteInstruction, registerSelectLow, write_okT]
  simp [writeChars_okT]

/-- C2 amended, witness: the invalid-line behaviour at line 5. -/
theorem displayString_invalid_line_witness :
    DisplayString transportOk pcfConn w0 [65] 5 0 =
      ({ trace := w0.trace ++ writeBytesList pcfConn 0x80 0 ++
           [65].flatMap (fun c => writeBytesList pcfConn (c % 256) 1),
         instrs := w0.instrs ++ (0, 0x80) :: [65].map (fun c => (1, c % 256)) },
       Except.ok ()) :=
  displayString_invalid_line pcfConn w0 [65] 5 0 (by decide) (by decide) (by decide)
    (by decide)

/-- C3 counterexample: `DisplayString("AB", line 1, column 3)` does not
issue the instruction byte 0xC3 the claim predicts; its write log is
not the claimed sequence. -/
theorem displayString_line1_not_0xC3 :
    (DisplayString transportOk pcfConn w0 [0x41, 0x42] 1 3).1.instrs ≠
      [(0, 0xC3), (1, 0x41), (1, 0x42)] := by decide

/-- C3 amended: the row bases are 1-indexed (line 1 → 0x00,
line 2 → 0x40, line 3 → 0x10, line 4 → 0x54), so
`DisplayString("AB", line 1, column 3)` issues exactly one set-address
instruction write with byte 0x80 + 3 = 0x83, followed by exactly the
two data writes 0x41 and 0x42, in that order. -/
theorem displayString_line1_0x83 :
    (DisplayString transportOk pcfConn w0 [0x41, 0x42] 1 3).1.instrs =
      [(0, 0x83), (1, 0x41), (1, 0x42)] ∧
    isOkResult (DisplayString transportOk pcfConn w0 [0x41, 0x42] 1 3).2 = true ∧
    displayAddress 1 0 = 0x00 ∧ displayAddress 2 0 = 0x40 ∧
    displayAddress 3 0 = 0x10 ∧ displayAddress 4 0 = 0x54 := by decide

/-- C4 counterexample: constructing with a pin map in which D4 and
Backlight share bit position 2 is not rejected: the constructor runs
the whole initialization (66 bus writes) and returns a connection. -/
theorem badPinMap_constructor_succeeds :
    isOkConn (NewHd44780I2c transportOk badPinMap [] w0).1 = true ∧
    (NewHd44780I2c transportOk badPinMap [] w0).2.trace.length = 66 := by decide

/-- C4 amended: the constructor performs no pin-map validation at all:
for every pin map (duplicate positions included) and every mode list it
proceeds with the 66 initialization bus writes and returns a connection
whenever the transport succeeds. -/
theorem constructor_no_validation (pm : I2CPinMap) (modes : List ModeSetter) (w : World) :
    isOkConn (NewHd44780I2c transportOk pm modes w).1 = true ∧
    (NewHd44780I2c transportOk pm modes w).2.trace.length = w.trace.length + 66 := by
  simp only [NewHd44780I2c, lcdInit_okT, SetMode, commitModes_okT]
  simp [isOkConn, writeBytesList_length]

/-- C5 counterexample: the first reset step of `lcdInit` (writing 0x03)
does not emit a single strobe of the 0011 nibble frame: it emits the
full two-frame byte write (six bus bytes, the 0000 high-nibble frame
strobed first). -/
theorem reset_write_not_single_frame :
    (WriteInstruction transportOk pcfConn w0 0x03).1.trace ≠
      frameBytes pcfConn registerSelectLow (instructionLow PCF8574PinMap 0x03) := by decide

/-- C5 amended: each of the three reset steps writes the byte 0x03 as a
full two-nibble write — the high-nibble frame 0000 strobed, then the
low-nibble frame 0011 strobed, six bus writes per step — and `lcdInit`
emits these three identical steps, then the 4-bit switch (0x02), the
clear instruction and the three mode commits. -/
theorem lcdInit_reset_full_byte (hd : Hd44780I2c) (w : World) :
    (lcdInit transportOk hd w).2.1.trace =
      w.trace ++ writeBytesList hd 3 0 ++ writeBytesList hd 3 0 ++
        writeBytesList hd 3 0 ++ writeBytesList hd 2 0 ++
        writeBytesList hd lcdClearDisplay 0 ++
        writeBytesList hd (lcdSetEntryMode ||| hd.eMode) 0 ++
        writeBytesList hd (lcdSetDisplayMode ||| hd.dMode) 0 ++
        writeBytesList hd (lcdSetFunctionMode ||| hd.fMode) 0 ∧
    writeBytesList hd 3 0 =
      frameBytes hd 0 (instructionHigh hd.pinMap 3) ++
        frameBytes hd 0 (instructionLow hd.pinMap 3) ∧
    (writeBytesList hd 3 0).length = 6 := by
  refine ⟨?_, rfl, writeBytesList_length hd 3 0⟩
  simp [lcdInit_okT]

end Hd44780
